import Mathlib

/-!
Shallow embedding of the scheduling core of the Hospital Assistant
repository (`database.py`, `agent_nodes.py`).

The SQLite tables become Lean lists of records; each `DatabaseManager`
method becomes a pure function from a `DBState` (plus its arguments) to
a new `DBState` together with the dictionary the method returns.  SQL
`UPDATE ... WHERE` statements become `List.map` with the same condition,
`SELECT ... fetchone` becomes `List.find?`, `INSERT` appends a row, and
the SQLite text comparison on `DATE`/`TIME` columns is the lexicographic
order on `String`.
-/

/-- Status column of the Appointments table
(the CHECK constraint allows Scheduled, Completed, Cancelled, No-show). -/
inductive Status where
  | Scheduled
  | Completed
  | Cancelled
  | NoShow
deriving DecidableEq, Repr

/-- One row of the Appointments table. -/
structure Appointment where
  appointment_id : Nat
  patient_id : Nat
  doctor_name : String
  appointment_date : String
  start_time : String
  end_time : String
  purpose : String
  status : Status
  notes : String
deriving DecidableEq, Repr

/-- One row of the DoctorAvailabilitySlots table. -/
structure Slot where
  doctor_name : String
  slot_date : String
  start_time : String
  end_time : String
  is_booked : Nat
deriving DecidableEq, Repr

/-- One row of the DoctorAvailability weekly template table. -/
structure AvailRow where
  doctor_name : String
  day_of_week : String
  start_time : String
  end_time : String
deriving DecidableEq, Repr

/-- The mutable database state the scheduling methods touch: the
Appointments and DoctorAvailabilitySlots tables, the weekly template,
and the AUTOINCREMENT counter used for `appointment_id`. -/
structure DBState where
  appointments : List Appointment
  slots : List Slot
  avail : List AvailRow
  nextId : Nat
deriving DecidableEq, Repr

/-- Value of a decimal digit character. -/
def digitVal (c : Char) : Nat := c.toNat - 48

/-- Parse an "HH:MM" time string into minutes since midnight
(embeds `datetime.strptime(t, "%H:%M")`). -/
def parseHM (t : String) : Nat :=
  match t.toList with
  | [h1, h2, _, m1, m2] =>
      (digitVal h1 * 10 + digitVal h2) * 60 + (digitVal m1 * 10 + digitVal m2)
  | _ => 0

/-- Two-digit zero-padded rendering of a number below 100. -/
def pad2 (n : Nat) : String :=
  (if n < 10 then "0" else "") ++ toString n

/-- Render minutes since midnight as "HH:MM" (embeds `strftime("%H:%M")`). -/
def fmtHM (m : Nat) : String :=
  pad2 (m / 60) ++ ":" ++ pad2 (m % 60)

/-- Add 30 minutes to an "HH:MM" string, as
`(datetime.strptime(t, "%H:%M") + timedelta(minutes=30)).strftime("%H:%M")`. -/
def add30 (t : String) : String := fmtHM (parseHM t + 30)

/-- Lexicographic (SQLite BINARY collation) strict comparison on the
character lists of two TEXT values. -/
def strLt : List Char → List Char → Bool
  | _, [] => false
  | [], _ :: _ => true
  | a :: as, b :: bs =>
      if a < b then true
      else if b < a then false
      else strLt as bs

/-- SQLite TEXT comparison `x < y` on strings. -/
def strLtS (a b : String) : Bool := strLt a.toList b.toList

/-- SQLite TEXT comparison `x >= y` on strings (negation of `<` in a
total order). -/
def strGeS (a b : String) : Bool := !(strLtS a b)

/-- The `WHERE doctor_name = ? AND slot_date = ? AND start_time = ?`
condition used by every slot UPDATE and by the slots table primary key. -/
def slotKeyEq (sl : Slot) (doc dt st : String) : Bool :=
  sl.doctor_name == doc && sl.slot_date == dt && sl.start_time == st

/-- Dictionary returned by `DatabaseManager.book_appointment`. -/
structure BookResult where
  appointment_id : Nat
  status : String
  doctor : String
  date : String
  time : String
deriving DecidableEq, Repr

/-- Dictionary returned by `DatabaseManager.cancel_appointment`
(only its `status` and `message` keys). -/
structure CancelResult where
  status : String
  message : String
deriving DecidableEq, Repr

/-- Dictionary returned by `DatabaseManager.reschedule_appointment`:
the failure dict has only status/message, the success dict also carries
doctor/new_date/new_time. -/
inductive RescheduleResult where
  | failed (message : String)
  | success (message doctor new_date new_time : String)
deriving DecidableEq, Repr

/-- Embedding of `DatabaseManager.book_appointment` (database.py:283-313).
It unconditionally INSERTs a new Scheduled appointment row, then runs
`UPDATE DoctorAvailabilitySlots SET is_booked = 1` on the target key,
and always returns a "confirmed" dict; there is no availability check. -/
def book_appointment (s : DBState) (patient_id : Nat)
    (doctor_name date_str time_str purpose : String) : DBState × BookResult :=
  let end_time := add30 time_str
  let appt : Appointment :=
    { appointment_id := s.nextId
      patient_id := patient_id
      doctor_name := doctor_name
      appointment_date := date_str
      start_time := time_str
      end_time := end_time
      purpose := purpose
      status := Status.Scheduled
      notes := "" }
  let slots := s.slots.map fun sl =>
    if slotKeyEq sl doctor_name date_str time_str then { sl with is_booked := 1 } else sl
  ({ s with appointments := s.appointments ++ [appt], slots := slots, nextId := s.nextId + 1 },
   { appointment_id := s.nextId, status := "confirmed", doctor := doctor_name,
     date := date_str, time := time_str })

/-- Embedding of `DatabaseManager.cancel_appointment` (database.py:315-340). -/
def cancel_appointment (s : DBState) (appointment_id : Nat) : DBState × CancelResult :=
  match s.appointments.find? (fun a => a.appointment_id == appointment_id) with
  | none => (s, { status := "failed", message := "Cannot cancel appointment" })
  | some a =>
    if a.status ≠ Status.Scheduled then
      (s, { status := "failed", message := "Cannot cancel appointment" })
    else
      let appts := s.appointments.map fun b =>
        if b.appointment_id == appointment_id then { b with status := Status.Cancelled } else b
      let slots := s.slots.map fun sl =>
        if slotKeyEq sl a.doctor_name a.appointment_date a.start_time then
          { sl with is_booked := 0 }
        else sl
      ({ s with appointments := appts, slots := slots },
       { status := "success", message := "Appointment successfully cancelled" })

/-- Embedding of `DatabaseManager.reschedule_appointment` (database.py:342-387).
Statement order as in the source: UPDATE Appointments, then free the old
slot, then book the new slot; no check that the new slot is free. -/
def reschedule_appointment (s : DBState) (appointment_id : Nat)
    (new_date new_time : String) : DBState × RescheduleResult :=
  match s.appointments.find? (fun a => a.appointment_id == appointment_id) with
  | none => (s, RescheduleResult.failed "Cannot reschedule appointment")
  | some a =>
    if a.status ≠ Status.Scheduled then
      (s, RescheduleResult.failed "Cannot reschedule appointment")
    else
      let new_end := add30 new_time
      let appts := s.appointments.map fun b =>
        if b.appointment_id == appointment_id then
          { b with appointment_date := new_date, start_time := new_time, end_time := new_end }
        else b
      let slots1 := s.slots.map fun sl =>
        if slotKeyEq sl a.doctor_name a.appointment_date a.start_time then
          { sl with is_booked := 0 }
        else sl
      let slots2 := slots1.map fun sl =>
        if slotKeyEq sl a.doctor_name new_date new_time then { sl with is_booked := 1 } else sl
      ({ s with appointments := appts, slots := slots2 },
       RescheduleResult.success "Appointment successfully rescheduled" a.doctor_name new_date new_time)

/-- Embedding of `DatabaseManager.get_available_doctors` (database.py:414-417):
`SELECT DISTINCT doctor_name FROM DoctorAvailability`. -/
def get_available_doctors (s : DBState) : List String :=
  (s.avail.map fun r => r.doctor_name).eraseDups

/-- The `while t + timedelta(minutes=30) <= end_dt` loop of
`_populate_database` (database.py:149-158): the list of slot start
times (in minutes) generated from a template window.  The loop emits
`t, t+30, t+60, ...` while the next 30-minute endpoint stays within the
window, i.e. exactly the starts `t + 30*k` for `k < (et - t) / 30`. -/
def slotStarts (t et : Nat) : List Nat :=
  (List.range ((et - t) / 30)).map fun k => t + 30 * k

/-- Key-and-payload of one generated `INSERT OR IGNORE` into
DoctorAvailabilitySlots. -/
structure SlotGen where
  doctor_name : String
  slot_date : String
  start_time : String
  end_time : String
deriving DecidableEq, Repr

/-- Does the slots table already contain a row with the primary key of
this generated insert? -/
def hasKeyG (slots : List Slot) (g : SlotGen) : Bool :=
  slots.any fun sl => slotKeyEq sl g.doctor_name g.slot_date g.start_time

/-- One `INSERT OR IGNORE INTO DoctorAvailabilitySlots` on primary key
`(doctor_name, slot_date, start_time)`: a new row with `is_booked = 0`
is appended only when no row with that key exists. -/
def insertOrIgnoreSlot (slots : List Slot) (g : SlotGen) : List Slot :=
  if hasKeyG slots g then slots
  else slots ++ [{ doctor_name := g.doctor_name, slot_date := g.slot_date,
                   start_time := g.start_time, end_time := g.end_time, is_booked := 0 }]

/-- The inserts generated by the materialization loops of
`_populate_database` (database.py:136-158), in loop order.  The
generation only reads the DoctorAvailability template, never the slots
table, so it is a pure list: for each day offset in `range(0, 30)`, for
each template row whose `day_of_week` matches that day, one insert per
30-minute increment of the window.  Calendar arithmetic
(`strftime("%A")` and `isoformat()`) is abstracted by the parameters
`dayNameOf` and `dateStrOf` on day numbers. -/
def genSlots (dayNameOf dateStrOf : Nat → String) (today : Nat)
    (avail : List AvailRow) : List SlotGen :=
  (List.range 30).flatMap fun off =>
    let day := today + off
    (avail.filter fun r => r.day_of_week == dayNameOf day).flatMap fun r =>
      (slotStarts (parseHM r.start_time) (parseHM r.end_time)).map fun t =>
        { doctor_name := r.doctor_name, slot_date := dateStrOf day,
          start_time := fmtHM t, end_time := fmtHM (t + 30) }

/-- Run a list of generated inserts against the slots table. -/
def foldInsert (gens : List SlotGen) (slots : List Slot) : List Slot :=
  gens.foldl insertOrIgnoreSlot slots

/-- Embedding of the slot-materialization step of `_populate_database`
(database.py:136-158): apply every generated `INSERT OR IGNORE` in loop
order to the DoctorAvailabilitySlots table. -/
def materialize (dayNameOf dateStrOf : Nat → String) (today : Nat)
    (avail : List AvailRow) (slots : List Slot) : List Slot :=
  foldInsert (genSlots dayNameOf dateStrOf today avail) slots

/-- The `WHERE patient_id = ? AND appointment_date >= ? AND status =
Scheduled` filter of `get_next_appointment` (database.py:396-407). -/
def upcomingScheduled (s : DBState) (patient_id : Nat) (today : String) : List Appointment :=
  s.appointments.filter fun a =>
    a.patient_id == patient_id && strGeS a.appointment_date today && a.status == Status.Scheduled

/-- The `ORDER BY appointment_date ASC, start_time ASC` comparison: `a`
sorts no later than `b`. -/
def apptLe (a b : Appointment) : Bool :=
  strLtS a.appointment_date b.appointment_date ||
    (a.appointment_date == b.appointment_date && !(strLtS b.start_time a.start_time))

/-- Embedding of `DatabaseManager.get_next_appointment`
(database.py:389-412): the first row of the upcoming-Scheduled filter
under `ORDER BY appointment_date ASC, start_time ASC LIMIT 1`, i.e. a
minimal element of the filtered rows, or `none` when there are none.
`datetime.now()` is abstracted by the `today` parameter. -/
def get_next_appointment (s : DBState) (patient_id : Nat) (today : String) :
    Option Appointment :=
  match upcomingScheduled s patient_id today with
  | [] => none
  | x :: xs => some (xs.foldl (fun m a => if apptLe m a then m else a) x)

/-- Number of Scheduled appointment rows referencing a slot key. -/
def scheduledCount (s : DBState) (doc dt st : String) : Nat :=
  (s.appointments.filter fun a =>
    a.status == Status.Scheduled && a.doctor_name == doc &&
      a.appointment_date == dt && a.start_time == st).length

/-- The consistency guarantee of the spec at one slot key: at most one
Scheduled appointment references it, and every slot row with that key
has `is_booked = 1` exactly when such an appointment exists. -/
def consistentAt (s : DBState) (doc dt st : String) : Bool :=
  decide (scheduledCount s doc dt st ≤ 1) &&
    s.slots.all fun sl =>
      !(slotKeyEq sl doc dt st) || ((sl.is_booked == 1) == (decide (1 ≤ scheduledCount s doc dt st)))

/-- Modelled from the spec: the set of doctors "with at least one free
slot on `date`" (spec section 4.3 step 1), which the spec says the
auto-assignment policy chooses among.  Used only to compare against the
roster the code actually chooses from. -/
def doctorsWithFreeSlot (s : DBState) (date : String) : List String :=
  ((s.slots.filter fun sl => sl.slot_date == date && sl.is_booked == 0).map
    fun sl => sl.doctor_name).eraseDups

/-- Doctor resolution of `booking_appointment_node`
(agent_nodes.py:249-252): when the user named no doctor, pick one at
random from `db.get_available_doctors()` (the whole template roster),
falling back to the literal "Dr. Smith" when that roster is empty.
`random.choice(seq)` draws a uniform index below `len(seq)`; it is
abstracted here by an arbitrary index `pickIdx` reduced modulo the
roster length. -/
def resolve_doctor (s : DBState) (pickIdx : Nat) (doctor_pref : Option String) : String :=
  match doctor_pref with
  | some d => d
  | none =>
    let available_doctors := get_available_doctors s
    if available_doctors.isEmpty then "Dr. Smith"
    else available_doctors.getD (pickIdx % available_doctors.length) "Dr. Smith"

/-- The booking step of `booking_appointment_node` with no doctor
preference (agent_nodes.py:249-255): resolve the doctor, then call
`db.book_appointment`. -/
def booking_node_book (s : DBState) (pickIdx : Nat) (patient_id : Nat)
    (date_str time_str purpose : String) : DBState × BookResult :=
  let doctor_pref := resolve_doctor s pickIdx none
  book_appointment s patient_id doctor_pref date_str time_str purpose

/-- A primitive database mutation: one UPDATE statement of
`reschedule_appointment`. -/
inductive Mutation where
  | updateAppt (appointment_id : Nat) (nd nt ne : String)
  | setSlot (doc dt st : String) (b : Nat)
deriving DecidableEq, Repr

/-- Effect of one primitive mutation on the database state. -/
def applyMutation (s : DBState) : Mutation → DBState
  | Mutation.updateAppt id nd nt ne =>
      { s with appointments := s.appointments.map fun b =>
          if b.appointment_id == id then
            { b with appointment_date := nd, start_time := nt, end_time := ne }
          else b }
  | Mutation.setSlot doc dt st b =>
      { s with slots := s.slots.map fun sl =>
          if slotKeyEq sl doc dt st then { sl with is_booked := b } else sl }

/-- The sequence of primitive mutations `reschedule_appointment` issues,
in source statement order (database.py:360-378): rewrite the appointment
row, then free the old slot, then book the new slot; empty when the
lookup fails or the status is not Scheduled. -/
def rescheduleTrace (s : DBState) (appointment_id : Nat) (nd nt : String) : List Mutation :=
  match s.appointments.find? (fun a => a.appointment_id == appointment_id) with
  | none => []
  | some a =>
    if a.status ≠ Status.Scheduled then []
    else
      [ Mutation.updateAppt appointment_id nd nt (add30 nt),
        Mutation.setSlot a.doctor_name a.appointment_date a.start_time 0,
        Mutation.setSlot a.doctor_name nd nt 1 ]

/-! Concrete database states used to evaluate the operations on
specific inputs. -/

/-- A template row for Dr. A. -/
def availA : AvailRow :=
  { doctor_name := "Dr. A", day_of_week := "Monday", start_time := "09:00", end_time := "12:00" }

/-- State with one free materialized slot for Dr. A and an empty
appointment ledger. -/
def stateFree : DBState :=
  { appointments := []
    slots := [{ doctor_name := "Dr. A", slot_date := "2025-03-10", start_time := "09:00",
                end_time := "09:30", is_booked := 0 }]
    avail := [availA]
    nextId := 1 }

/-- The state after booking the single slot of `stateFree` once. -/
def stateBooked : DBState :=
  (book_appointment stateFree 1 "Dr. A" "2025-03-10" "09:00" "Checkup").1

/-- The state after booking the same slot a second time. -/
def stateDouble : DBState :=
  (book_appointment stateBooked 1 "Dr. A" "2025-03-10" "09:00" "Checkup").1

/-- State with two Scheduled appointments on two distinct booked
slots of the same doctor. -/
def stateTwo : DBState :=
  { appointments :=
      [{ appointment_id := 1, patient_id := 1, doctor_name := "Dr. A",
         appointment_date := "2025-03-10", start_time := "09:00", end_time := "09:30",
         purpose := "Checkup", status := Status.Scheduled, notes := "" },
       { appointment_id := 2, patient_id := 2, doctor_name := "Dr. A",
         appointment_date := "2025-03-11", start_time := "10:00", end_time := "10:30",
         purpose := "Follow-up", status := Status.Scheduled, notes := "" }]
    slots :=
      [{ doctor_name := "Dr. A", slot_date := "2025-03-10", start_time := "09:00",
         end_time := "09:30", is_booked := 1 },
       { doctor_name := "Dr. A", slot_date := "2025-03-11", start_time := "10:00",
         end_time := "10:30", is_booked := 1 }]
    avail := [availA]
    nextId := 3 }

/-- State whose only appointment is already Cancelled. -/
def stateCancelled : DBState :=
  { appointments :=
      [{ appointment_id := 1, patient_id := 1, doctor_name := "Dr. A",
         appointment_date := "2025-03-10", start_time := "09:00", end_time := "09:30",
         purpose := "Checkup", status := Status.Cancelled, notes := "" }]
    slots := [{ doctor_name := "Dr. A", slot_date := "2025-03-10", start_time := "09:00",
                end_time := "09:30", is_booked := 0 }]
    avail := [availA]
    nextId := 2 }

/-- The Scheduled appointment row of `stateTwo` with id 1. -/
def apptOne : Appointment :=
  { appointment_id := 1, patient_id := 1, doctor_name := "Dr. A",
    appointment_date := "2025-03-10", start_time := "09:00", end_time := "09:30",
    purpose := "Checkup", status := Status.Scheduled, notes := "" }

/-- State where the only slot of the roster day is already booked, so no
doctor has a free slot on "2025-03-10", yet the roster is nonempty. -/
def stateNoFree : DBState :=
  { appointments := []
    slots := [{ doctor_name := "Dr. A", slot_date := "2025-03-10", start_time := "09:00",
                end_time := "09:30", is_booked := 1 }]
    avail := [availA]
    nextId := 1 }

/-- State for the reschedule trace: appointment 1 is Scheduled on a
booked slot, and a second, free slot exists at the reschedule target. -/
def stateMove : DBState :=
  { appointments := [apptOne]
    slots :=
      [{ doctor_name := "Dr. A", slot_date := "2025-03-10", start_time := "09:00",
         end_time := "09:30", is_booked := 1 },
       { doctor_name := "Dr. A", slot_date := "2025-03-11", start_time := "10:00",
         end_time := "10:30", is_booked := 0 }]
    avail := [availA]
    nextId := 2 }

/-- Appointments used by the next-appointment query state. -/
def apptNextB : Appointment :=
  { appointment_id := 11, patient_id := 1, doctor_name := "Dr. A",
    appointment_date := "2025-03-11", start_time := "09:00", end_time := "09:30",
    purpose := "Follow-up", status := Status.Scheduled, notes := "" }

/-- State exercising `get_next_appointment`: patient 1 has a later
Scheduled appointment, an earlier Completed one, a past Scheduled
one, and patient 2 has an earlier Scheduled one. -/
def stateNext : DBState :=
  { appointments :=
      [{ appointment_id := 10, patient_id := 1, doctor_name := "Dr. A",
         appointment_date := "2025-03-12", start_time := "10:00", end_time := "10:30",
         purpose := "Checkup", status := Status.Scheduled, notes := "" },
       apptNextB,
       { appointment_id := 12, patient_id := 1, doctor_name := "Dr. A",
         appointment_date := "2025-03-11", start_time := "08:00", end_time := "08:30",
         purpose := "Checkup", status := Status.Completed, notes := "" },
       { appointment_id := 13, patient_id := 1, doctor_name := "Dr. A",
         appointment_date := "2025-03-01", start_time := "09:00", end_time := "09:30",
         purpose := "Checkup", status := Status.Scheduled, notes := "" },
       { appointment_id := 14, patient_id := 2, doctor_name := "Dr. A",
         appointment_date := "2025-03-10", start_time := "08:00", end_time := "08:30",
         purpose := "Checkup", status := Status.Scheduled, notes := "" }]
    slots := []
    avail := [availA]
    nextId := 15 }


/-! Helper lemmas: the SQLite text order is a linear order. -/

theorem strLt_irrefl (l : List Char) : strLt l l = false := by
  induction l with
  | nil => rfl
  | cons a as ih => simp [strLt, ih]

theorem strLt_asymm (a : List Char) : ∀ b, strLt a b = true → strLt b a = false := by
  induction a with
  | nil =>
    intro b h
    cases b with
    | nil => simp [strLt] at h
    | cons y ys => rfl
  | cons x xs ih =>
    intro b h
    cases b with
    | nil => simp [strLt] at h
    | cons y ys =>
      rcases lt_trichotomy x y with h1 | h1 | h1
      · simp [strLt, h1, asymm h1]
      · subst h1
        simp [strLt, lt_irrefl] at h ⊢
        exact ih ys h
      · simp [strLt, h1, asymm h1] at h

theorem strLt_trans (a : List Char) :
    ∀ b c, strLt a b = true → strLt b c = true → strLt a c = true := by
  induction a with
  | nil =>
    intro b c hab hbc
    cases c with
    | nil =>
      cases b with
      | nil => simp [strLt] at hab
      | cons y ys => simp [strLt] at hbc
    | cons z zs => rfl
  | cons x xs ih =>
    intro b c hab hbc
    cases b with
    | nil => simp [strLt] at hab
    | cons y ys =>
      cases c with
      | nil => simp [strLt] at hbc
      | cons z zs =>
        rcases lt_trichotomy x y with h1 | h1 | h1
        · rcases lt_trichotomy y z with h2 | h2 | h2
          · simp [strLt, lt_trans h1 h2]
          · subst h2; simp [strLt, h1]
          · simp [strLt, h2, asymm h2] at hbc
        · subst h1
          rcases lt_trichotomy x z with h2 | h2 | h2
          · simp [strLt, h2]
          · subst h2
            simp [strLt, lt_irrefl] at hab hbc ⊢
            exact ih ys zs hab hbc
          · simp [strLt, h2, asymm h2] at hbc
        · simp [strLt, h1, asymm h1] at hab

theorem strLt_eq_of_not (a : List Char) :
    ∀ b, strLt a b = false → strLt b a = false → a = b := by
  induction a with
  | nil =>
    intro b hab _
    cases b with
    | nil => rfl
    | cons y ys => simp [strLt] at hab
  | cons x xs ih =>
    intro b hab hba
    cases b with
    | nil => simp [strLt] at hba
    | cons y ys =>
      rcases lt_trichotomy x y with h1 | h1 | h1
      · simp [strLt, h1] at hab
      · subst h1
        simp [strLt, lt_irrefl] at hab hba
        rw [ih ys hab hba]
      · simp [strLt, h1] at hba

theorem strLtS_irrefl (a : String) : strLtS a a = false := strLt_irrefl a.toList

theorem strLtS_asymm {a b : String} (h : strLtS a b = true) : strLtS b a = false :=
  strLt_asymm a.toList b.toList h

theorem strLtS_trans {a b c : String} (h1 : strLtS a b = true) (h2 : strLtS b c = true) :
    strLtS a c = true :=
  strLt_trans a.toList b.toList c.toList h1 h2

theorem strLtS_eq_of_not {a b : String} (h1 : strLtS a b = false) (h2 : strLtS b a = false) :
    a = b :=
  String.toList_inj.mp (strLt_eq_of_not a.toList b.toList h1 h2)

/-! Helper lemmas: the ORDER BY comparison is a total preorder. -/

theorem apptLe_refl (a : Appointment) : apptLe a a = true := by
  simp [apptLe, strLtS_irrefl]

theorem apptLe_total (a b : Appointment) (h : apptLe a b = false) : apptLe b a = true := by
  simp only [apptLe, Bool.or_eq_false_iff, Bool.and_eq_false_iff] at h
  obtain ⟨h1, h2⟩ := h
  by_cases hd : strLtS b.appointment_date a.appointment_date = true
  · simp [apptLe, hd]
  · have hd0 : strLtS b.appointment_date a.appointment_date = false := by
      simpa using hd
    have heq : a.appointment_date = b.appointment_date := strLtS_eq_of_not h1 hd0
    rcases h2 with h2 | h2
    · simp [heq] at h2
    · have ht : strLtS b.start_time a.start_time = true := by
        simpa using h2
      have ht0 : strLtS a.start_time b.start_time = false := strLtS_asymm ht
      simp [apptLe, heq, ht0]

theorem apptLe_trans (a b c : Appointment) (h1 : apptLe a b = true) (h2 : apptLe b c = true) :
    apptLe a c = true := by
  simp only [apptLe, Bool.or_eq_true, Bool.and_eq_true, beq_iff_eq,
    Bool.not_eq_true'] at h1 h2 ⊢
  rcases h1 with h1 | ⟨h1e, h1t⟩
  · rcases h2 with h2 | ⟨h2e, h2t⟩
    · exact Or.inl (strLtS_trans h1 h2)
    · exact Or.inl (h2e ▸ h1)
  · rcases h2 with h2 | ⟨h2e, h2t⟩
    · exact Or.inl (h1e ▸ h2)
    · refine Or.inr ⟨h1e.trans h2e, ?_⟩
      by_cases h : strLtS b.start_time c.start_time = true
      · by_cases hca : strLtS c.start_time a.start_time = true
        · have hba : strLtS b.start_time a.start_time = true := strLtS_trans h hca
          rw [hba] at h1t; cases h1t
        · simpa using hca
      · have h0 : strLtS b.start_time c.start_time = false := by simpa using h
        have hbc : b.start_time = c.start_time := strLtS_eq_of_not h0 h2t
        rw [← hbc]
        exact h1t

/-! Helper lemmas: the fold that realizes `ORDER BY ... LIMIT 1`. -/

theorem foldlMin_mem (xs : List Appointment) :
    ∀ x, xs.foldl (fun m a => if apptLe m a then m else a) x = x ∨
      xs.foldl (fun m a => if apptLe m a then m else a) x ∈ xs := by
  induction xs with
  | nil => intro x; exact Or.inl rfl
  | cons a as ih =>
    intro x
    rcases ih (if apptLe x a then x else a) with h | h
    · rw [List.foldl_cons, h]
      by_cases hxa : apptLe x a = true
      · simp [hxa]
      · simp [hxa]
    · exact Or.inr (List.mem_cons_of_mem a h)

theorem foldlMin_le (xs : List Appointment) :
    ∀ x b, (b = x ∨ b ∈ xs) →
      apptLe (xs.foldl (fun m a => if apptLe m a then m else a) x) b = true := by
  induction xs with
  | nil =>
    intro x b hb
    rcases hb with rfl | hb
    · exact apptLe_refl b
    · cases hb
  | cons a as ih =>
    intro x b hb
    have hstep : ∀ c, (c = x ∨ c = a) →
        apptLe (if apptLe x a then x else a) c = true := by
      intro c hc
      by_cases hxa : apptLe x a = true
      · rcases hc with rfl | rfl
        · simp [hxa, apptLe_refl]
        · simp [hxa]
      · have hax : apptLe a x = true := apptLe_total x a (by simpa using hxa)
        rcases hc with rfl | rfl
        · simpa [hxa] using hax
        · simp [hxa, apptLe_refl]
    have hmin : apptLe (as.foldl (fun m a => if apptLe m a then m else a)
        (if apptLe x a then x else a)) (if apptLe x a then x else a) = true :=
      ih (if apptLe x a then x else a) (if apptLe x a then x else a) (Or.inl rfl)
    rw [List.foldl_cons]
    rcases hb with rfl | hb
    · exact apptLe_trans _ _ _ hmin (hstep b (Or.inl rfl))
    · rcases List.mem_cons.mp hb with rfl | hb
      · exact apptLe_trans _ _ _ hmin (hstep b (Or.inr rfl))
      · exact ih (if apptLe x a then x else a) b (Or.inr hb)

/-- Claim C10 -- `get_next_appointment` returns `None` exactly when the
patient has no Scheduled appointment dated on or after today, and
otherwise returns one of those appointments that is minimal under the
lexicographic (appointment_date, start_time) order. -/
theorem next_appointment_is_minimal_upcoming (s : DBState) (patient_id : Nat) (today : String) :
    (get_next_appointment s patient_id today = none ↔
      upcomingScheduled s patient_id today = []) ∧
    (∀ a, get_next_appointment s patient_id today = some a →
      a ∈ upcomingScheduled s patient_id today ∧
        ∀ b ∈ upcomingScheduled s patient_id today, apptLe a b = true) := by
  constructor
  · constructor
    · intro h
      unfold get_next_appointment at h
      cases hu : upcomingScheduled s patient_id today with
      | nil => rfl
      | cons x xs => rw [hu] at h; cases h
    · intro h
      unfold get_next_appointment
      rw [h]
  · intro a ha
    unfold get_next_appointment at ha
    cases hu : upcomingScheduled s patient_id today with
    | nil => rw [hu] at ha; cases ha
    | cons x xs =>
      rw [hu] at ha
      have ha2 : xs.foldl (fun m a => if apptLe m a then m else a) x = a :=
        Option.some.inj ha
      constructor
      · rw [← ha2]
        rcases foldlMin_mem xs x with h | h
        · rw [h]; exact List.mem_cons_self x xs
        · exact List.mem_cons_of_mem x h
      · intro b hb
        rw [← ha2]
        rcases List.mem_cons.mp hb with h | hb2
        · exact foldlMin_le xs x b (Or.inl h)
        · exact foldlMin_le xs x b (Or.inr hb2)

/-- Witness for C10 at a concrete state: the query returns the row that
is earliest by (date, start_time) among the upcoming Scheduled
appointments. -/
theorem next_appointment_is_minimal_upcoming_witness :
    get_next_appointment stateNext 1 "2025-03-10" = some apptNextB ∧
      apptNextB ∈ upcomingScheduled stateNext 1 "2025-03-10" :=
  ⟨by decide,
   ((next_appointment_is_minimal_upcoming stateNext 1 "2025-03-10").2 apptNextB (by decide)).1⟩

/-! Helper lemmas: `INSERT OR IGNORE` only ever appends absent keys. -/

theorem insertOrIgnore_append (slots : List Slot) (g : SlotGen) :
    ∃ ext, insertOrIgnoreSlot slots g = slots ++ ext := by
  by_cases h : hasKeyG slots g = true
  · exact ⟨[], by simp [insertOrIgnoreSlot, h]⟩
  · exact ⟨[{ doctor_name := g.doctor_name, slot_date := g.slot_date,
              start_time := g.start_time, end_time := g.end_time, is_booked := 0 }],
      by simp [insertOrIgnoreSlot, h]⟩

theorem hasKeyG_append (slots ext : List Slot) (g : SlotGen) (h : hasKeyG slots g = true) :
    hasKeyG (slots ++ ext) g = true := by
  unfold hasKeyG at h ⊢
  rw [List.any_append, h]
  rfl

theorem insertOrIgnore_of_hasKey (slots : List Slot) (g : SlotGen)
    (h : hasKeyG slots g = true) : insertOrIgnoreSlot slots g = slots := by
  simp [insertOrIgnoreSlot, h]

theorem hasKeyG_insertOrIgnore (slots : List Slot) (g : SlotGen) :
    hasKeyG (insertOrIgnoreSlot slots g) g = true := by
  by_cases h : hasKeyG slots g = true
  · rw [insertOrIgnore_of_hasKey slots g h]; exact h
  · unfold insertOrIgnoreSlot
    rw [if_neg h]
    unfold hasKeyG
    rw [List.any_append]
    simp [slotKeyEq]

theorem foldInsert_append (gens : List SlotGen) :
    ∀ slots, ∃ ext, foldInsert gens slots = slots ++ ext := by
  induction gens with
  | nil => intro slots; exact ⟨[], by simp [foldInsert]⟩
  | cons g gs ih =>
    intro slots
    obtain ⟨e1, he1⟩ := insertOrIgnore_append slots g
    obtain ⟨e2, he2⟩ := ih (insertOrIgnoreSlot slots g)
    refine ⟨e1 ++ e2, ?_⟩
    show foldInsert gs (insertOrIgnoreSlot slots g) = slots ++ (e1 ++ e2)
    rw [he2, he1, List.append_assoc]

theorem hasKeyG_foldInsert_mono (gens : List SlotGen) (slots : List Slot) (g : SlotGen)
    (h : hasKeyG slots g = true) : hasKeyG (foldInsert gens slots) g = true := by
  obtain ⟨ext, he⟩ := foldInsert_append gens slots
  rw [he]
  exact hasKeyG_append _ _ _ h

theorem hasKeyG_foldInsert_all (gens : List SlotGen) :
    ∀ slots g, g ∈ gens → hasKeyG (foldInsert gens slots) g = true := by
  induction gens with
  | nil => intro slots g hg; cases hg
  | cons g0 gs ih =>
    intro slots g hg
    rcases List.mem_cons.mp hg with h | hg2
    · subst h
      show hasKeyG (foldInsert gs (insertOrIgnoreSlot slots g)) g = true
      exact hasKeyG_foldInsert_mono gs _ g (hasKeyG_insertOrIgnore slots g)
    · exact ih _ g hg2

theorem foldInsert_no_op (gens : List SlotGen) :
    ∀ slots, (∀ g ∈ gens, hasKeyG slots g = true) → foldInsert gens slots = slots := by
  induction gens with
  | nil => intro slots _; rfl
  | cons g0 gs ih =>
    intro slots h
    have h0 : insertOrIgnoreSlot slots g0 = slots :=
      insertOrIgnore_of_hasKey _ _ (h g0 (List.mem_cons_self _ _))
    show foldInsert gs (insertOrIgnoreSlot slots g0) = slots
    rw [h0]
    exact ih slots fun g hg => h g (List.mem_cons_of_mem _ hg)

/-- Claim C4 -- slot materialization is idempotent: running the
materialization step a second time over the same horizon yields exactly
the same slot table, and a single run only appends rows after the
existing ones, so it never duplicates a slot key it already inserted and
never resets the `is_booked` flag of an existing row. -/
theorem materialize_idempotent (dayNameOf dateStrOf : Nat → String) (today : Nat)
    (avail : List AvailRow) (slots : List Slot) :
    materialize dayNameOf dateStrOf today avail
        (materialize dayNameOf dateStrOf today avail slots) =
      materialize dayNameOf dateStrOf today avail slots ∧
    ∃ ext, materialize dayNameOf dateStrOf today avail slots = slots ++ ext := by
  constructor
  · exact foldInsert_no_op _ _ fun g hg => hasKeyG_foldInsert_all _ slots g hg
  · exact foldInsert_append _ slots

/-- Claim C5 -- cancelling an appointment whose row is absent, or whose
status is not Scheduled (e.g. already Cancelled), fails and mutates
nothing: the state comes back unchanged with the failure dictionary.
The source returns the same single generic failure for both the NotFound
and the AlreadyFinal case of the spec. -/
theorem cancel_nonscheduled_fails (s : DBState) (appointment_id : Nat)
    (h : ((s.appointments.find? fun b => b.appointment_id == appointment_id).all
        fun a => !(a.status == Status.Scheduled)) = true) :
    cancel_appointment s appointment_id =
      (s, { status := "failed", message := "Cannot cancel appointment" }) := by
  unfold cancel_appointment
  cases hf : s.appointments.find? (fun b => b.appointment_id == appointment_id) with
  | none => rfl
  | some a =>
    rw [hf] at h
    have ha : a.status ≠ Status.Scheduled := by simpa using h
    dsimp only
    rw [if_pos ha]

/-- Witness for C5: cancelling the already-Cancelled appointment 1 of
`stateCancelled`, and cancelling the absent appointment 99, both fail
with no mutation. -/
theorem cancel_nonscheduled_fails_witness :
    ((stateCancelled.appointments.find? fun b => b.appointment_id == 1).all
        fun a => !(a.status == Status.Scheduled)) = true ∧
    cancel_appointment stateCancelled 1 =
      (stateCancelled, { status := "failed", message := "Cannot cancel appointment" }) ∧
    cancel_appointment stateCancelled 99 =
      (stateCancelled, { status := "failed", message := "Cannot cancel appointment" }) :=
  ⟨by decide, cancel_nonscheduled_fails stateCancelled 1 (by decide),
    cancel_nonscheduled_fails stateCancelled 99 (by decide)⟩

/-- Claim C6 -- cancelling a Scheduled appointment succeeds: the
returned dictionary reports success, the appointment rows with that id
reappear with status Cancelled and all other fields unchanged, every
slot keyed by the appointment key (doctor_name, date, start_time) has
`is_booked = 0` afterwards, and every other appointment row and every
slot with a different key is unchanged. -/
theorem cancel_scheduled_succeeds (s : DBState) (appointment_id : Nat) (a : Appointment)
    (hfind : s.appointments.find? (fun b => b.appointment_id == appointment_id) = some a)
    (hs : a.status = Status.Scheduled) :
    (cancel_appointment s appointment_id).2 =
      { status := "success", message := "Appointment successfully cancelled" } ∧
    (∀ b ∈ s.appointments, b.appointment_id = appointment_id →
      { b with status := Status.Cancelled } ∈
        (cancel_appointment s appointment_id).1.appointments) ∧
    (∀ b ∈ s.appointments, b.appointment_id ≠ appointment_id →
      b ∈ (cancel_appointment s appointment_id).1.appointments) ∧
    (∀ sl ∈ (cancel_appointment s appointment_id).1.slots,
      slotKeyEq sl a.doctor_name a.appointment_date a.start_time = true → sl.is_booked = 0) ∧
    (∀ sl ∈ s.slots, slotKeyEq sl a.doctor_name a.appointment_date a.start_time = false →
      sl ∈ (cancel_appointment s appointment_id).1.slots) := by
  have hns : ¬ a.status ≠ Status.Scheduled := by simp [hs]
  have hred : cancel_appointment s appointment_id =
      ({ s with
          appointments := s.appointments.map fun b =>
            if b.appointment_id == appointment_id then { b with status := Status.Cancelled }
            else b,
          slots := s.slots.map fun sl =>
            if slotKeyEq sl a.doctor_name a.appointment_date a.start_time then
              { sl with is_booked := 0 }
            else sl },
        { status := "success", message := "Appointment successfully cancelled" }) := by
    unfold cancel_appointment
    rw [hfind]
    dsimp only
    rw [if_neg hns]
  rw [hred]
  refine ⟨rfl, ?_, ?_, ?_, ?_⟩
  · intro b hb hbid
    have he : (if b.appointment_id == appointment_id then { b with status := Status.Cancelled }
        else b) = { b with status := Status.Cancelled } := by simp [hbid]
    rw [← he]
    exact List.mem_map_of_mem _ hb
  · intro b hb hbid
    have he : (if b.appointment_id == appointment_id then { b with status := Status.Cancelled }
        else b) = b := by simp [hbid]
    rw [← he]
    exact List.mem_map_of_mem _ hb
  · intro sl hsl hkey
    obtain ⟨x, hx, hxe⟩ := List.mem_map.mp hsl
    by_cases hk : slotKeyEq x a.doctor_name a.appointment_date a.start_time = true
    · rw [if_pos hk] at hxe
      rw [← hxe]
    · rw [if_neg hk] at hxe
      rw [← hxe] at hkey
      exact absurd hkey hk
  · intro sl hsl hkey
    have he : (if slotKeyEq sl a.doctor_name a.appointment_date a.start_time then
        { sl with is_booked := 0 } else sl) = sl := by simp [hkey]
    rw [← he]
    exact List.mem_map_of_mem _ hsl

/-- Witness for C6: cancelling the Scheduled appointment 1 of
`stateTwo` reports success. -/
theorem cancel_scheduled_succeeds_witness :
    stateTwo.appointments.find? (fun b => b.appointment_id == 1) = some apptOne ∧
    apptOne.status = Status.Scheduled ∧
    (cancel_appointment stateTwo 1).2 =
      { status := "success", message := "Appointment successfully cancelled" } :=
  ⟨by decide, by decide,
    (cancel_scheduled_succeeds stateTwo 1 apptOne (by decide) (by decide)).1⟩

/-- Claim C9 -- a successful reschedule of a Scheduled appointment
rewrites only the date, start_time and end_time fields: the operation
reports success, each row with the target id reappears with exactly the
new date/time and its other fields (id, patient, doctor, purpose, notes,
status -- hence still Scheduled for the looked-up row) unchanged, rows
with another id are untouched, and every row of the result keeps the
appointment_id, patient_id, doctor_name, purpose, notes and status of
the source row it came from. -/
theorem reschedule_rewrites_only_datetime (s : DBState) (appointment_id : Nat)
    (a : Appointment) (new_date new_time : String)
    (hfind : s.appointments.find? (fun b => b.appointment_id == appointment_id) = some a)
    (hs : a.status = Status.Scheduled) :
    (reschedule_appointment s appointment_id new_date new_time).2 =
      RescheduleResult.success "Appointment successfully rescheduled"
        a.doctor_name new_date new_time ∧
    (∀ b ∈ s.appointments, b.appointment_id = appointment_id →
      { b with
          appointment_date := new_date, start_time := new_time,
          end_time := add30 new_time }
        ∈ (reschedule_appointment s appointment_id new_date new_time).1.appointments) ∧
    (∀ b ∈ s.appointments, b.appointment_id ≠ appointment_id →
      b ∈ (reschedule_appointment s appointment_id new_date new_time).1.appointments) ∧
    (∀ b ∈ (reschedule_appointment s appointment_id new_date new_time).1.appointments,
      ∃ c ∈ s.appointments, b.appointment_id = c.appointment_id ∧
        b.patient_id = c.patient_id ∧ b.doctor_name = c.doctor_name ∧
        b.purpose = c.purpose ∧ b.notes = c.notes ∧ b.status = c.status) := by
  have hns : ¬ a.status ≠ Status.Scheduled := by simp [hs]
  have hred : (reschedule_appointment s appointment_id new_date new_time).1.appointments =
      s.appointments.map (fun b =>
        if b.appointment_id == appointment_id then
          { b with
              appointment_date := new_date, start_time := new_time,
              end_time := add30 new_time }
        else b) ∧
      (reschedule_appointment s appointment_id new_date new_time).2 =
      RescheduleResult.success "Appointment successfully rescheduled"
        a.doctor_name new_date new_time := by
    unfold reschedule_appointment
    rw [hfind]
    dsimp only
    rw [if_neg hns]
    exact ⟨rfl, rfl⟩
  refine ⟨hred.2, ?_, ?_, ?_⟩
  · intro b hb hbid
    rw [hred.1]
    have he : (if b.appointment_id == appointment_id then
        { b with
            appointment_date := new_date, start_time := new_time,
            end_time := add30 new_time }
        else b) =
        { b with
            appointment_date := new_date, start_time := new_time,
            end_time := add30 new_time } := by simp [hbid]
    rw [← he]
    exact List.mem_map_of_mem _ hb
  · intro b hb hbid
    rw [hred.1]
    have he : (if b.appointment_id == appointment_id then
        { b with
            appointment_date := new_date, start_time := new_time,
            end_time := add30 new_time }
        else b) = b := by simp [hbid]
    rw [← he]
    exact List.mem_map_of_mem _ hb
  · intro b hb
    rw [hred.1] at hb
    obtain ⟨x, hx, hxe⟩ := List.mem_map.mp hb
    refine ⟨x, hx, ?_⟩
    by_cases hk : (x.appointment_id == appointment_id) = true
    · rw [if_pos hk] at hxe
      rw [← hxe]
      exact ⟨rfl, rfl, rfl, rfl, rfl, rfl⟩
    · rw [if_neg hk] at hxe
      rw [← hxe]
      exact ⟨rfl, rfl, rfl, rfl, rfl, rfl⟩

/-- Witness for C9: rescheduling the Scheduled appointment 1 of
`stateMove` succeeds and the rewritten row (new date/time, all other
fields as before, status still Scheduled) is in the resulting ledger. -/
theorem reschedule_rewrites_only_datetime_witness :
    stateMove.appointments.find? (fun b => b.appointment_id == 1) = some apptOne ∧
    apptOne.status = Status.Scheduled ∧
    (reschedule_appointment stateMove 1 "2025-03-11" "10:00").2 =
      RescheduleResult.success "Appointment successfully rescheduled"
        "Dr. A" "2025-03-11" "10:00" :=
  ⟨by decide, by decide,
    (reschedule_rewrites_only_datetime stateMove 1 apptOne "2025-03-11" "10:00"
      (by decide) (by decide)).1⟩

/-- List lookup with default stays inside the list when the index is in
range. -/
theorem getD_mem_of_lt (l : List String) : ∀ i d, i < l.length → l.getD i d ∈ l := by
  induction l with
  | nil => intro i d h; simp at h
  | cons x xs ih =>
    intro i d h
    cases i with
    | zero => exact List.mem_cons_self x xs
    | succ n =>
      have h2 : n < xs.length := by simpa using h
      exact List.mem_cons_of_mem x (ih n d h2)

/-- Counterexample to claim C7 as stated: in `stateNoFree` no doctor has
a free slot on 2025-03-10 (the candidate set demanded by the spec is empty, so the
claim demands a NoDoctorAvailable failure), yet the candidate roster
of the booking node is the whole availability template, and the booking
proceeds: it returns "confirmed" with Dr. A and inserts an appointment. -/
theorem booking_node_counterexample :
    doctorsWithFreeSlot stateNoFree "2025-03-10" = [] ∧
    get_available_doctors stateNoFree = ["Dr. A"] ∧
    (booking_node_book stateNoFree 0 1 "2025-03-10" "09:00" "Checkup").2.status =
      "confirmed" ∧
    (booking_node_book stateNoFree 0 1 "2025-03-10" "09:00" "Checkup").2.doctor = "Dr. A" ∧
    (booking_node_book stateNoFree 0 1 "2025-03-10" "09:00" "Checkup").1.appointments.length =
      1 := by
  decide

/-- Claim C7 amended -- when no doctor is specified, the booking node
resolves the doctor by a uniform choice over the entire availability
roster (`get_available_doctors`), ignoring free slots on the requested
date, uses the literal "Dr. Smith" when the roster is empty, and always
books: it never fails with NoDoctorAvailable. -/
theorem booking_node_picks_from_roster (s : DBState) (pickIdx patient_id : Nat)
    (date_str time_str purpose : String) :
    (booking_node_book s pickIdx patient_id date_str time_str purpose).2.status =
      "confirmed" ∧
    (booking_node_book s pickIdx patient_id date_str time_str purpose).1.appointments.length =
      s.appointments.length + 1 ∧
    ((get_available_doctors s = [] ∧
        (booking_node_book s pickIdx patient_id date_str time_str purpose).2.doctor =
          "Dr. Smith") ∨
      (booking_node_book s pickIdx patient_id date_str time_str purpose).2.doctor ∈
        get_available_doctors s) := by
  refine ⟨rfl, ?_, ?_⟩
  · show (s.appointments ++ [_]).length = s.appointments.length + 1
    rw [List.length_append]
    rfl
  · show (get_available_doctors s = [] ∧ resolve_doctor s pickIdx none = "Dr. Smith") ∨
      resolve_doctor s pickIdx none ∈ get_available_doctors s
    unfold resolve_doctor
    dsimp only
    by_cases h : (get_available_doctors s).isEmpty = true
    · rw [if_pos h]
      exact Or.inl ⟨List.isEmpty_iff.mp h, rfl⟩
    · rw [if_neg h]
      right
      have hne : get_available_doctors s ≠ [] := by
        intro he
        rw [he] at h
        exact h rfl
      have hlen : 0 < (get_available_doctors s).length := List.length_pos.mpr hne
      exact getD_mem_of_lt _ _ _ (Nat.mod_lt _ hlen)

/-- Counterexample to claim C8 as stated: rescheduling appointment 1 of
`stateMove` to the free slot (2025-03-11, 10:00) issues the ledger
rewrite first and the reservation of the new slot last, and after the
first primitive mutation the appointment row already points at the new
slot while the `is_booked` flag of that slot is still 0. -/
theorem reschedule_order_counterexample :
    rescheduleTrace stateMove 1 "2025-03-11" "10:00" =
      [Mutation.updateAppt 1 "2025-03-11" "10:00" "10:30",
       Mutation.setSlot "Dr. A" "2025-03-10" "09:00" 0,
       Mutation.setSlot "Dr. A" "2025-03-11" "10:00" 1] ∧
    (applyMutation stateMove
        (Mutation.updateAppt 1 "2025-03-11" "10:00" "10:30")).appointments.map
      (fun b => (b.appointment_date, b.start_time)) = [("2025-03-11", "10:00")] ∧
    (applyMutation stateMove
        (Mutation.updateAppt 1 "2025-03-11" "10:00" "10:30")).slots.filter
      (fun sl => slotKeyEq sl "Dr. A" "2025-03-11" "10:00") =
      [{ doctor_name := "Dr. A", slot_date := "2025-03-11", start_time := "10:00",
         end_time := "10:30", is_booked := 0 }] := by
  decide

/-- Claim C8 amended -- in every successful reschedule the primitive
mutation order is: the ledger rewrite of the appointment date/time
first, then the release of the old slot, then the reservation of the new
slot (so the reservation happens last, not first), and folding that
trace over the state reproduces exactly the state
`reschedule_appointment` returns. -/
theorem reschedule_trace_order (s : DBState) (appointment_id : Nat) (nd nt : String)
    (a : Appointment)
    (hfind : s.appointments.find? (fun b => b.appointment_id == appointment_id) = some a)
    (hs : a.status = Status.Scheduled) :
    rescheduleTrace s appointment_id nd nt =
      [Mutation.updateAppt appointment_id nd nt (add30 nt),
       Mutation.setSlot a.doctor_name a.appointment_date a.start_time 0,
       Mutation.setSlot a.doctor_name nd nt 1] ∧
    (rescheduleTrace s appointment_id nd nt).foldl applyMutation s =
      (reschedule_appointment s appointment_id nd nt).1 := by
  have hns : ¬ a.status ≠ Status.Scheduled := by simp [hs]
  have htr : rescheduleTrace s appointment_id nd nt =
      [Mutation.updateAppt appointment_id nd nt (add30 nt),
       Mutation.setSlot a.doctor_name a.appointment_date a.start_time 0,
       Mutation.setSlot a.doctor_name nd nt 1] := by
    unfold rescheduleTrace
    rw [hfind]
    dsimp only
    rw [if_neg hns]
  refine ⟨htr, ?_⟩
  rw [htr]
  unfold reschedule_appointment
  rw [hfind]
  dsimp only
  rw [if_neg hns]
  rfl

/-- Witness for the amended C8 at a concrete reschedule. -/
theorem reschedule_trace_order_witness :
    stateMove.appointments.find? (fun b => b.appointment_id == 1) = some apptOne ∧
    apptOne.status = Status.Scheduled ∧
    (rescheduleTrace stateMove 1 "2025-03-11" "10:00").foldl applyMutation stateMove =
      (reschedule_appointment stateMove 1 "2025-03-11" "10:00").1 :=
  ⟨by decide, by decide,
    (reschedule_trace_order stateMove 1 "2025-03-11" "10:00" apptOne
      (by decide) (by decide)).2⟩

/-- Claim C1 evaluation at the failing input: booking the single free
slot of `stateFree` succeeds and marks the slot booked; the identical
repeated Book call still returns "confirmed" and inserts a second
Scheduled appointment on the already-booked slot instead of failing
with SlotUnavailable, and booking a slot with no materialized row also
returns "confirmed". -/
theorem book_repeat_succeeds_eval :
    (book_appointment stateFree 1 "Dr. A" "2025-03-10" "09:00" "Checkup").2.status =
      "confirmed" ∧
    stateBooked.slots.map (fun sl => sl.is_booked) = [1] ∧
    (book_appointment stateBooked 1 "Dr. A" "2025-03-10" "09:00" "Checkup").2.status =
      "confirmed" ∧
    stateDouble.appointments.length = 2 ∧
    (book_appointment stateFree 1 "Dr. A" "2099-01-01" "09:00" "Checkup").2.status =
      "confirmed" := by
  decide

/-- Claim C2 evaluation at the failing input: the slot/ledger consistency
holds in `stateFree` and still after the first booking, but after the
repeated booking of the same slot two Scheduled appointments reference
the key (Dr. A, 2025-03-10, 09:00) and the invariant is violated. -/
theorem invariant_violated_eval :
    consistentAt stateFree "Dr. A" "2025-03-10" "09:00" = true ∧
    consistentAt stateBooked "Dr. A" "2025-03-10" "09:00" = true ∧
    scheduledCount stateDouble "Dr. A" "2025-03-10" "09:00" = 2 ∧
    consistentAt stateDouble "Dr. A" "2025-03-10" "09:00" = false := by
  decide

/-- Claim C3 evaluation at the failing input: rescheduling appointment 1
of `stateTwo` onto the occupied slot (Dr. A, 2025-03-11, 10:00) succeeds
and rewrites the appointment in place instead of failing with
SlotUnavailable and leaving the state unchanged; afterwards two
Scheduled appointments reference the occupied slot. -/
theorem reschedule_occupied_succeeds_eval :
    (reschedule_appointment stateTwo 1 "2025-03-11" "10:00").2 =
      RescheduleResult.success "Appointment successfully rescheduled"
        "Dr. A" "2025-03-11" "10:00" ∧
    (reschedule_appointment stateTwo 1 "2025-03-11" "10:00").1.appointments.map
      (fun b => (b.appointment_id, b.appointment_date, b.start_time)) =
      [(1, "2025-03-11", "10:00"), (2, "2025-03-11", "10:00")] ∧
    scheduledCount (reschedule_appointment stateTwo 1 "2025-03-11" "10:00").1
      "Dr. A" "2025-03-11" "10:00" = 2 := by
  decide
